import Mathlib

/-!
Verification development for the Anthropic-to-AWS-Bedrock / Anthropic-to-GCP
translator layer of an AI gateway.

The Go sources are shallowly embedded:

* JSON documents (`map[string]any` after `json.Unmarshal`) become the `JSON`
  inductive; Go type assertions become the `JSON.as*` accessors.
* Go string-keyed maps become association lists with unique-key semantics
  (`removeKey` / `setKey` / `List.lookup`).
* Machine `uint32` conversions become `Nat`/`Int` arithmetic modulo 2^32.
* Fallible operations return `Except String` / `Option`.
* A response body handed to `ResponseBody` is modelled by the two observations
  the code makes of its bytes: its decomposition into SSE lines (used by the
  streaming branch) and its parse as a JSON document (used by the final
  branch).
-/

set_option maxRecDepth 4096

/-- A JSON value as produced by Go's `json.Unmarshal` into `any`:
numbers always decode to `float64` (modelled as `ℚ`), objects to
`map[string]any` (modelled as an association list). -/
inductive JSON where
  | null
  | bool (b : Bool)
  | num (q : ℚ)
  | str (s : String)
  | arr (elems : List JSON)
  | obj (fields : List (String × JSON))

/-- Go type assertion `v.(string)`. -/
def JSON.asString : JSON → Option String
  | .str s => some s
  | _ => none

/-- Go type assertion `v.(bool)`. -/
def JSON.asBool : JSON → Option Bool
  | .bool b => some b
  | _ => none

/-- Go type assertion `v.(float64)` (every JSON number decodes to `float64`). -/
def JSON.asFloat : JSON → Option ℚ
  | .num q => some q
  | _ => none

/-- Go type assertion `v.(map[string]any)`. -/
def JSON.asObj : JSON → Option (List (String × JSON))
  | .obj fields => some fields
  | _ => none

/-- Go `delete(m, k)` on a `map[string]any`: removes the binding for `k`
(association lists model the map, so every pair with key `k` goes). -/
def removeKey (k : String) (l : List (String × JSON)) : List (String × JSON) :=
  l.filter (fun p => p.1 != k)

/-- Go `m[k] = v` on a `map[string]any`: replaces any existing binding. -/
def setKey (k : String) (v : JSON) (l : List (String × JSON)) : List (String × JSON) :=
  removeKey k l ++ [(k, v)]

/-- The canonical Messages request: Go type `MessagesRequest` is
`map[string]interface{}`. -/
abbrev MessagesRequest := List (String × JSON)

/-- Modelled from the spec: the typed accessor `GetModel()` of the canonical
request, which reads the `model` field and degrades gracefully (returns the
zero value `""`) when the field is absent or not a string.  The accessor's
code is not under `src/`. -/
def MessagesRequest.GetModel (m : MessagesRequest) : String :=
  match (m.lookup "model").bind JSON.asString with
  | some s => s
  | none => ""

/-- Go struct `LLMTokenUsage` with `uint32` counters, modelled as naturals
that are kept below `2^32`. -/
structure LLMTokenUsage where
  InputTokens : Nat
  OutputTokens : Nat
  TotalTokens : Nat
  CachedInputTokens : Nat
deriving DecidableEq, Repr

/-- The zero value `LLMTokenUsage{}`. -/
def zeroUsage : LLMTokenUsage := ⟨0, 0, 0, 0⟩

/-- The `uint32` modulus. -/
def u32Mod : Nat := 4294967296

/-- Go conversion `uint32(n)` of an `int64`, which truncates to the low
32 bits. -/
def u32ofInt (n : Int) : Nat := (n % (4294967296 : Int)).toNat

/-- Truncation of a `float64` value toward zero (the rounding Go performs
when converting a float to an integer type). -/
def ratTrunc (q : ℚ) : Int := if 0 ≤ q then ⌊q⌋ else ⌈q⌉

/-- Go conversion `uint32(f)` of a `float64`: truncate toward zero, then
wrap to the low 32 bits (the amd64 behaviour for out-of-range values). -/
def u32ofFloat (q : ℚ) : Nat := u32ofInt (ratTrunc q)

/-- One physical line of an SSE-framed streaming chunk, classified the way
the Go code classifies it after `bytes.TrimSpace`: a line carrying the SSE
data marker whose remainder is valid JSON, a line carrying the marker whose
remainder is not valid JSON, or a line without the marker.  The marker
constant (`"data: "`) lives outside `src/`; only the classification it
induces is relevant. -/
inductive SSELine where
  | data (v : JSON)
  | dataMalformed (raw : String)
  | other (raw : String)

/-- Processing of a single SSE line by the loop body of
`extractTokenUsageFromSSE` (src/unnamed/part_004 lines 74-114, and the
identical inline loop of `anthropicToAWSAnthropicTranslator.ResponseBody`,
src/internal/extproc/translator/anthropic_awsanthropic.go lines 104-142):
lines without the data marker and data lines that fail `json.Unmarshal`
(including valid JSON that is not an object) are skipped; `message_start`
reads `message.usage.input_tokens` (and a positive
`message.usage.output_tokens`), `message_delta` adds `usage.output_tokens`;
`TotalTokens` is recomputed after each usage-bearing update. -/
def sseStep (u : LLMTokenUsage) (line : SSELine) : LLMTokenUsage :=
  match line with
  | .other _ => u
  | .dataMalformed _ => u
  | .data v =>
    match v.asObj with
    | none => u
    | some eventData =>
      match (eventData.lookup "type").bind JSON.asString with
      | some "message_start" =>
        match (eventData.lookup "message").bind JSON.asObj with
        | none => u
        | some messageData =>
          match (messageData.lookup "usage").bind JSON.asObj with
          | none => u
          | some usageData =>
            let u1 :=
              match (usageData.lookup "input_tokens").bind JSON.asFloat with
              | some inputTokens => { u with InputTokens := u32ofFloat inputTokens }
              | none => u
            let u2 :=
              match (usageData.lookup "output_tokens").bind JSON.asFloat with
              | some outputTokens =>
                if 0 < outputTokens then { u1 with OutputTokens := u32ofFloat outputTokens }
                else u1
              | none => u1
            { u2 with TotalTokens := (u2.InputTokens + u2.OutputTokens) % u32Mod }
      | some "message_delta" =>
        match (eventData.lookup "usage").bind JSON.asObj with
        | none => u
        | some usageData =>
          match (usageData.lookup "output_tokens").bind JSON.asFloat with
          | some outputTokens =>
            let u1 := { u with OutputTokens := (u.OutputTokens + u32ofFloat outputTokens) % u32Mod }
            { u1 with TotalTokens := (u1.InputTokens + u1.OutputTokens) % u32Mod }
          | none => u
      | _ => u

/-- `extractTokenUsageFromSSE` (src/unnamed/part_004 lines 70-117): a fold
of the loop body over the chunk's lines, starting from the local zero-value
accumulator `var tokenUsage LLMTokenUsage`. -/
def extractTokenUsageFromSSE (lines : List SSELine) : LLMTokenUsage :=
  lines.foldl sseStep zeroUsage

/-- The usage block of the anthropic-sdk `Message` struct: `int64` fields
`input_tokens`, `output_tokens`, `cache_read_input_tokens`. -/
structure AnthropicUsage where
  input_tokens : Int
  output_tokens : Int
  cache_read_input_tokens : Int
deriving DecidableEq, Repr

/-- The anthropic-sdk `Message` struct, restricted to the `usage` block that
the translators read.  Decode failures of the other `Message` fields are not
modelled; a body on which they would fail is represented with a failing
top-level parse instead. -/
structure AnthropicMessage where
  usage : AnthropicUsage
deriving DecidableEq, Repr

/-- Go `json.Unmarshal` of a JSON number into an `int64` field: only whole
numbers inside the `int64` range decode; anything else is an unmarshal
error.  A JSON `null` leaves the field at its zero value. -/
def decodeInt64Field (fields : List (String × JSON)) (k : String) : Option Int :=
  match fields.lookup k with
  | none => some 0
  | some .null => some 0
  | some (.num q) =>
    if q.den = 1 ∧ -(2 ^ 63) ≤ q.num ∧ q.num < 2 ^ 63 then some q.num else none
  | some _ => none

/-- Go `json.Unmarshal(bodyBytes, &anthropicResp)` for `anthropic.Message`:
fails when the bytes are not valid JSON (`none` input), when the top level
is not an object, or when the `usage` block or its token fields have the
wrong type; absent fields keep their zero values. -/
def unmarshalAnthropicMessage : Option JSON → Option AnthropicMessage
  | none => none
  | some v =>
    match v.asObj with
    | none => none
    | some fields =>
      match fields.lookup "usage" with
      | none => some ⟨⟨0, 0, 0⟩⟩
      | some .null => some ⟨⟨0, 0, 0⟩⟩
      | some uv =>
        match uv.asObj with
        | none => none
        | some usageFields => do
          let it ← decodeInt64Field usageFields "input_tokens"
          let ot ← decodeInt64Field usageFields "output_tokens"
          let cr ← decodeInt64Field usageFields "cache_read_input_tokens"
          some ⟨⟨it, ot, cr⟩⟩

/-- `extractTokenUsageFromResponse` (src/unnamed/part_004 lines 121-135, and
the identical inline code of the AWS translator's final branch,
src/internal/extproc/translator/anthropic_awsanthropic.go lines 149-164):
unmarshal the body as an anthropic `Message` and convert its usage counters
with `uint32` conversions, `TotalTokens` being the `uint32` conversion of
the `int64` sum. -/
def extractTokenUsageFromResponse (jsonBody : Option JSON) : Option LLMTokenUsage :=
  match unmarshalAnthropicMessage jsonBody with
  | none => none
  | some m =>
    some ⟨u32ofInt m.usage.input_tokens,
          u32ofInt m.usage.output_tokens,
          u32ofInt (m.usage.input_tokens + m.usage.output_tokens),
          u32ofInt m.usage.cache_read_input_tokens⟩

/-- A raw response body, modelled by the two observations `ResponseBody`
makes of its bytes: the SSE line decomposition (streaming branch) and the
result of parsing the whole body as JSON (final branch, `none` when the
bytes are not valid JSON).  Passing the value through unchanged models
passing the original bytes through unchanged. -/
structure RawBody where
  sseLines : List SSELine
  jsonBody : Option JSON

/-- A response-side header mutation: the only one the translators ever
produce sets `content-length`.  Modelled from the spec: `setContentLength`
(whose code is not under `src/`) sets the `content-length` header to the
body's byte length. -/
inductive RespHeaderMutation where
  | contentLength
deriving DecidableEq, Repr

/-- The tuple returned by `ResponseBody` (header mutation, body mutation,
token usage, response model). -/
structure ResponseBodyResult where
  headerMutation : Option RespHeaderMutation
  bodyMutation : Option RawBody
  tokenUsage : LLMTokenUsage
  responseModel : String

/-- `anthropicResponseHandler.ResponseBody` (src/unnamed/part_004 lines
32-66).  The handler is stateless; `requestModel` is passed by the caller.
The only error path in the source is a failure of `io.ReadAll`, which
cannot occur once the bytes are in hand, so the embedding always returns
`Except.ok`. -/
def anthropicResponseHandler.ResponseBody (body : RawBody) (endOfStream : Bool)
    (requestModel : String) : Except String ResponseBodyResult :=
  if !endOfStream then
    .ok ⟨none, some body, extractTokenUsageFromSSE body.sseLines, requestModel⟩
  else
    match extractTokenUsageFromResponse body.jsonBody with
    | none => .ok ⟨none, some body, zeroUsage, requestModel⟩
    | some tokenUsage => .ok ⟨some .contentLength, some body, tokenUsage, requestModel⟩

/-- Go's `net/url` hex digits (`upperhex = "0123456789ABCDEF"`). -/
def hexDigitChar (n : Nat) : Char :=
  if n < 10 then Char.ofNat (48 + n) else Char.ofNat (55 + n)

/-- Go's `net/url.shouldEscape` for mode `encodePathSegment`, on a byte:
alphanumerics and `-`, `_`, `.`, `~` are kept; of the reserved characters
`$ & + , / : ; = ? @`, exactly `/`, `;`, `,`, `?` are escaped; every other
byte is escaped. -/
def shouldEscapePathSegment (b : Nat) : Bool :=
  if (97 ≤ b ∧ b ≤ 122) ∨ (65 ≤ b ∧ b ≤ 90) ∨ (48 ≤ b ∧ b ≤ 57) then false
  else if b = 45 ∨ b = 95 ∨ b = 46 ∨ b = 126 then false
  else if b = 36 ∨ b = 38 ∨ b = 43 ∨ b = 44 ∨ b = 47 ∨ b = 58 ∨ b = 59 ∨
          b = 61 ∨ b = 63 ∨ b = 64 then
    decide (b = 47 ∨ b = 59 ∨ b = 44 ∨ b = 63)
  else true

/-- The UTF-8 encoding of a character, as the list of its byte values
(Go strings are byte sequences; `url.PathEscape` works byte by byte). -/
def utf8Bytes (c : Char) : List Nat :=
  let n := c.toNat
  if n < 128 then [n]
  else if n < 2048 then [192 + n / 64, 128 + n % 64]
  else if n < 65536 then [224 + n / 4096, 128 + (n / 64) % 64, 128 + n % 64]
  else [240 + n / 262144, 128 + (n / 4096) % 64, 128 + (n / 64) % 64, 128 + n % 64]

/-- One byte of `url.PathEscape` output: `%XX` when escaped, the byte's
character otherwise. -/
def escapeByte (b : Nat) : List Char :=
  if shouldEscapePathSegment b then ['%', hexDigitChar (b / 16), hexDigitChar (b % 16)]
  else [Char.ofNat b]

/-- Go's `net/url.PathEscape`: escape the string so it can be safely placed
inside a URL path segment. -/
def pathEscape (s : String) : String :=
  String.mk (((s.data.map utf8Bytes).flatten.map escapeByte).flatten)

/-- The request-side mutations: the `:path` header value and the field map
that is marshalled into the replacement body.  Modelled from the spec:
`buildRequestMutations` (whose code is not under `src/`) sets `:path` to
the given path suffix, sets `content-length` to the body's byte length
(byte-level serialization is not modelled), and fully replaces the body. -/
structure RequestMutations where
  path : String
  bodyFields : List (String × JSON)

/-- `buildRequestMutations` — see `RequestMutations`. -/
def buildRequestMutations (pathSuffix : String) (body : List (String × JSON)) :
    RequestMutations :=
  ⟨pathSuffix, body⟩

/-- `applyModelNameOverride` (src/unnamed/part_004 lines 137-143). -/
def applyModelNameOverride (originalModel : String) (override : String) : String :=
  if override != "" then override else originalModel

/-- The AWS translator struct of
src/internal/extproc/translator/anthropic_awsanthropic.go (lines 32-35):
configuration `modelNameOverride` plus the per-exchange `requestModel`. -/
structure anthropicToAWSAnthropicTranslator where
  modelNameOverride : String
  requestModel : String
deriving DecidableEq, Repr

/-- `NewAnthropicToAWSAnthropicTranslator` (same file, lines 26-30):
`requestModel` starts at its zero value `""`. -/
def NewAnthropicToAWSAnthropicTranslator (modelNameOverride : String) :
    anthropicToAWSAnthropicTranslator :=
  ⟨modelNameOverride, ""⟩

/-- `anthropicToAWSAnthropicTranslator.RequestBody` (same file, lines
39-80): copy the request map, resolve the model (override wins when
non-empty), delete `model` from the body, choose the path template from the
copied map's `stream` field (`bool` assertion, `true` required), URL-escape
the resolved model into the path.  `json.Marshal` of a field map cannot
fail, so the embedding always returns `Except.ok`.  The mutated translator
(with its stored `requestModel`) is returned alongside. -/
def anthropicToAWSAnthropicTranslator.RequestBody
    (a : anthropicToAWSAnthropicTranslator) (body : MessagesRequest) :
    anthropicToAWSAnthropicTranslator × Except String RequestMutations :=
  let modelName := body.GetModel
  let anthropicReq := body
  let requestModel := if a.modelNameOverride != "" then a.modelNameOverride else modelName
  let anthropicReq := removeKey "model" anthropicReq
  let streaming :=
    match (anthropicReq.lookup "stream").bind JSON.asBool with
    | some true => true
    | _ => false
  let encodedModelID := pathEscape requestModel
  let pathSuffix :=
    if streaming then "/model/" ++ encodedModelID ++ "/invoke-stream"
    else "/model/" ++ encodedModelID ++ "/invoke"
  (⟨a.modelNameOverride, requestModel⟩, .ok (buildRequestMutations pathSuffix anthropicReq))

/-- `anthropicToAWSAnthropicTranslator.ResponseBody` (same file, lines
92-174): for a non-final chunk, fold the SSE usage extraction over the
lines and pass the body through with no header mutation; for the final
body, unmarshal as an anthropic `Message`, passing through with zero usage
on failure, and with extracted usage plus a `content-length` header
mutation on success.  Only `io.ReadAll` can error in the source, so the
embedding always returns `Except.ok`. -/
def anthropicToAWSAnthropicTranslator.ResponseBody
    (a : anthropicToAWSAnthropicTranslator) (body : RawBody) (endOfStream : Bool) :
    Except String ResponseBodyResult :=
  if !endOfStream then
    .ok ⟨none, some body, extractTokenUsageFromSSE body.sseLines, a.requestModel⟩
  else
    match extractTokenUsageFromResponse body.jsonBody with
    | none => .ok ⟨none, some body, zeroUsage, a.requestModel⟩
    | some tokenUsage => .ok ⟨some .contentLength, some body, tokenUsage, a.requestModel⟩

/-- The body key for the backend API version.  Its defining constant is not
under `src/`; the spec fixes the key: `anthropic_version`. -/
def anthropicVersionKey : String := "anthropic_version"

/-- Modelled from the spec: the publisher segment used by the GCP variant
for the Anthropic backend (the constant `gcpModelPublisherAnthropic` is not
under `src/`). -/
def gcpModelPublisherAnthropic : String := "anthropic"

/-- Modelled from the spec: `buildGCPModelPathSuffix` (not under `src/`)
formats the GCP path as a publisher/model segment followed by the
specifier: `/<publisher>/models/<id>:<specifier>`. -/
def buildGCPModelPathSuffix (publisher model specifier : String) : String :=
  "/" ++ publisher ++ "/models/" ++ model ++ ":" ++ specifier

/-- The GCP translator struct (src/unnamed/part_003 lines 30-35); the
stateless response handler it holds carries no data. -/
structure anthropicToGCPAnthropicTranslator where
  apiVersion : String
  modelNameOverride : String
  requestModel : String
deriving DecidableEq, Repr

/-- `NewAnthropicToGCPAnthropicTranslator` (src/unnamed/part_003 lines
22-28): `requestModel` starts at its zero value. -/
def NewAnthropicToGCPAnthropicTranslator (apiVersion modelNameOverride : String) :
    anthropicToGCPAnthropicTranslator :=
  ⟨apiVersion, modelNameOverride, ""⟩

/-- `anthropicToGCPAnthropicTranslator.RequestBody` (src/unnamed/part_003
lines 39-78): copy the map, resolve the model via
`applyModelNameOverride`, delete `model`, fail with a configuration error
when `apiVersion` is empty, otherwise inject `anthropic_version`, choose
`rawPredict`/`streamRawPredict` from the copied map's `stream` field and
build the GCP path.  `requestModel` is stored before the version check, so
the returned translator carries it even on the error path. -/
def anthropicToGCPAnthropicTranslator.RequestBody
    (a : anthropicToGCPAnthropicTranslator) (body : MessagesRequest) :
    anthropicToGCPAnthropicTranslator × Except String RequestMutations :=
  let modelName := body.GetModel
  let anthropicReq := body
  let requestModel := applyModelNameOverride modelName a.modelNameOverride
  let a1 : anthropicToGCPAnthropicTranslator := ⟨a.apiVersion, a.modelNameOverride, requestModel⟩
  let anthropicReq := removeKey "model" anthropicReq
  if a.apiVersion = "" then
    (a1, .error "anthropic_version is required for GCP Vertex AI but not provided in backend configuration")
  else
    let anthropicReq := setKey anthropicVersionKey (.str a.apiVersion) anthropicReq
    let specifier :=
      match (anthropicReq.lookup "stream").bind JSON.asBool with
      | some true => "streamRawPredict"
      | _ => "rawPredict"
    let pathSuffix := buildGCPModelPathSuffix gcpModelPublisherAnthropic requestModel specifier
    (a1, .ok (buildRequestMutations pathSuffix anthropicReq))

/-- `anthropicToGCPAnthropicTranslator.ResponseBody` (src/unnamed/part_003
lines 90-94): delegates to the stateless shared handler with the stored
`requestModel`. -/
def anthropicToGCPAnthropicTranslator.ResponseBody
    (a : anthropicToGCPAnthropicTranslator) (body : RawBody) (endOfStream : Bool) :
    Except String ResponseBodyResult :=
  anthropicResponseHandler.ResponseBody body endOfStream a.requestModel

/-- The apiVersion-bearing AWS translator snapshot of src/unnamed/part_005
(first file; lines 32-37): configuration `apiVersion` and
`modelNameOverride` plus the per-exchange `requestModel`. -/
structure anthropicToAWSAnthropicTranslatorWithVersion where
  apiVersion : String
  modelNameOverride : String
  requestModel : String
deriving DecidableEq, Repr

/-- `NewAnthropicToAWSAnthropicTranslator` of the src/unnamed/part_005
snapshot (lines 24-30). -/
def NewAnthropicToAWSAnthropicTranslatorWithVersion (apiVersion modelNameOverride : String) :
    anthropicToAWSAnthropicTranslatorWithVersion :=
  ⟨apiVersion, modelNameOverride, ""⟩

/-- `anthropicToAWSAnthropicTranslator.RequestBody` of the
src/unnamed/part_005 snapshot (lines 41-86): like the
src/internal/extproc/translator/anthropic_awsanthropic.go version but the
model is resolved via `applyModelNameOverride`, an empty `apiVersion` is a
configuration error, and `anthropic_version` is injected into the body. -/
def anthropicToAWSAnthropicTranslatorWithVersion.RequestBody
    (a : anthropicToAWSAnthropicTranslatorWithVersion) (body : MessagesRequest) :
    anthropicToAWSAnthropicTranslatorWithVersion × Except String RequestMutations :=
  let modelName := body.GetModel
  let anthropicReq := body
  let requestModel := applyModelNameOverride modelName a.modelNameOverride
  let a1 : anthropicToAWSAnthropicTranslatorWithVersion :=
    ⟨a.apiVersion, a.modelNameOverride, requestModel⟩
  let anthropicReq := removeKey "model" anthropicReq
  if a.apiVersion = "" then
    (a1, .error "anthropic_version is required for AWS Bedrock but not provided in backend configuration")
  else
    let anthropicReq := setKey anthropicVersionKey (.str a.apiVersion) anthropicReq
    let streaming :=
      match (anthropicReq.lookup "stream").bind JSON.asBool with
      | some true => true
      | _ => false
    let encodedModelID := pathEscape requestModel
    let pathSuffix :=
      if streaming then "/model/" ++ encodedModelID ++ "/invoke-stream"
      else "/model/" ++ encodedModelID ++ "/invoke"
    (a1, .ok (buildRequestMutations pathSuffix anthropicReq))

theorem lookup_removeKey {k k' : String} (l : List (String × JSON)) (h : k ≠ k') :
    (removeKey k' l).lookup k = l.lookup k := by
  induction l with
  | nil => rfl
  | cons p t ih =>
    obtain ⟨a, b⟩ := p
    by_cases hak : a = k'
    · subst hak
      simp only [removeKey, List.filter_cons, bne_self_eq_false, Bool.false_eq_true, if_false]
      rw [List.lookup_cons, show (k == a) = false by simp [h]]
      exact ih
    · simp only [removeKey, List.filter_cons, show (a != k') = true by simp [hak], if_true]
      rw [List.lookup_cons, List.lookup_cons]
      by_cases hka : k = a
      · simp [hka]
      · rw [show (k == a) = false by simp [hka]]
        exact ih

theorem lookup_removeKey_self {k : String} (l : List (String × JSON)) :
    (removeKey k l).lookup k = none := by
  induction l with
  | nil => rfl
  | cons p t ih =>
    obtain ⟨a, b⟩ := p
    by_cases hak : a = k
    · subst hak
      simpa only [removeKey, List.filter_cons, bne_self_eq_false, Bool.false_eq_true,
        if_false] using ih
    · simp only [removeKey, List.filter_cons, show (a != k) = true by simp [hak], if_true]
      rw [List.lookup_cons, show (k == a) = false by simp [Ne.symm hak]]
      exact ih

theorem lookup_setKey_ne {k k' : String} (v : JSON) (l : List (String × JSON)) (h : k ≠ k') :
    (setKey k' v l).lookup k = l.lookup k := by
  unfold setKey
  rw [List.lookup_append, lookup_removeKey l h]
  cases hl : l.lookup k with
  | none => simp [List.lookup_cons, show (k == k') = false by simp [h]]
  | some w => simp

theorem lookup_setKey_self {k : String} (v : JSON) (l : List (String × JSON)) :
    (setKey k v l).lookup k = some v := by
  unfold setKey
  rw [List.lookup_append, lookup_removeKey_self]
  simp [List.lookup_cons]

/-- The property "string s ends with string t". -/
def strEndsWith (s t : String) : Prop := ∃ p : String, s = p ++ t

theorem strEndsWith_append (p t : String) : strEndsWith (p ++ t) t := ⟨p, rfl⟩

theorem data_suffix_of_strEndsWith {s t : String} (h : strEndsWith s t) :
    t.data <:+ s.data := by
  obtain ⟨p, hp⟩ := h
  rw [hp, String.data_append]
  exact List.suffix_append _ _

theorem strEndsWith_suffix_or {s t₁ t₂ : String} (h1 : strEndsWith s t₁)
    (h2 : strEndsWith s t₂) : t₁.data <:+ t₂.data ∨ t₂.data <:+ t₁.data :=
  List.suffix_or_suffix_of_suffix (data_suffix_of_strEndsWith h1) (data_suffix_of_strEndsWith h2)

theorem aws_no_stream_suffix (enc : String) :
    ¬ strEndsWith ("/model/" ++ enc ++ "/invoke") "/invoke-stream" := by
  intro h
  rcases strEndsWith_suffix_or (strEndsWith_append ("/model/" ++ enc) "/invoke") h with h' | h'
  · exact absurd h' (by decide)
  · exact absurd h' (by decide)

theorem gcp_no_stream_suffix (base : String) :
    ¬ strEndsWith (base ++ ":" ++ "rawPredict") ":streamRawPredict" := by
  intro h
  rw [String.append_assoc] at h
  rcases strEndsWith_suffix_or (strEndsWith_append base (":" ++ "rawPredict")) h with h' | h'
  · exact absurd h' (by decide)
  · exact absurd h' (by decide)

/-- Test vector: a `message_start` SSE event whose nested usage carries only
`input_tokens`. -/
def messageStartEvent (i : ℚ) : SSELine :=
  .data (.obj [("type", .str "message_start"),
               ("message", .obj [("usage", .obj [("input_tokens", .num i)])])])

/-- Test vector: a `message_delta` SSE event whose usage carries
`output_tokens`. -/
def messageDeltaEvent (o : ℚ) : SSELine :=
  .data (.obj [("type", .str "message_delta"),
               ("usage", .obj [("output_tokens", .num o)])])

theorem sseStep_messageStart (u : LLMTokenUsage) (i : ℚ) :
    sseStep u (messageStartEvent i)
      = ⟨u32ofFloat i, u.OutputTokens,
         (u32ofFloat i + u.OutputTokens) % u32Mod, u.CachedInputTokens⟩ := rfl

theorem sseStep_messageDelta (u : LLMTokenUsage) (o : ℚ) :
    sseStep u (messageDeltaEvent o)
      = ⟨u.InputTokens, (u.OutputTokens + u32ofFloat o) % u32Mod,
         (u.InputTokens + (u.OutputTokens + u32ofFloat o) % u32Mod) % u32Mod,
         u.CachedInputTokens⟩ := rfl

theorem sseStep_preserves_total (u : LLMTokenUsage) (l : SSELine)
    (h : u.TotalTokens = (u.InputTokens + u.OutputTokens) % u32Mod) :
    (sseStep u l).TotalTokens
      = ((sseStep u l).InputTokens + (sseStep u l).OutputTokens) % u32Mod := by
  unfold sseStep
  repeat' split
  all_goals first | exact h | rfl

theorem foldl_sseStep_total (lines : List SSELine) (u : LLMTokenUsage)
    (h : u.TotalTokens = (u.InputTokens + u.OutputTokens) % u32Mod) :
    (lines.foldl sseStep u).TotalTokens
      = ((lines.foldl sseStep u).InputTokens + (lines.foldl sseStep u).OutputTokens) % u32Mod := by
  induction lines generalizing u with
  | nil => exact h
  | cons l t ih => exact ih (sseStep u l) (sseStep_preserves_total u l h)

/-- C1 counterexample: the usage accumulator does NOT persist across
successive ResponseBody calls of one stream.  A first call whose chunk is a
message_start with input_tokens 10 reports usage (10,0,10,0); a second call
on the same translator whose chunk is a message_delta with output_tokens 5
reports (0,5,5,0) — the InputTokens set by the earlier call is gone and
TotalTokens is 5, not the (10,5,15,0) the claim requires. -/
theorem C1_counterexample :
    ((NewAnthropicToAWSAnthropicTranslator "").ResponseBody
        ⟨[messageStartEvent 10], none⟩ false).toOption.map ResponseBodyResult.tokenUsage
      = some ⟨10, 0, 10, 0⟩
    ∧ ((NewAnthropicToAWSAnthropicTranslator "").ResponseBody
        ⟨[messageDeltaEvent 5], none⟩ false).toOption.map ResponseBodyResult.tokenUsage
      = some ⟨0, 5, 5, 0⟩
    ∧ (⟨0, 5, 5, 0⟩ : LLMTokenUsage) ≠ ⟨10, 5, 15, 0⟩ := by
  refine ⟨by decide, by decide, by decide⟩

/-- C1 (amended): the usage accumulator state persists across events within
a single ResponseBody call but not across calls.  Each streaming call folds
the chunk's lines starting from a fresh zero accumulator and returns the
fold's final state; within a call the state threads from event to event
(fold over concatenation), a message_start assigns InputTokens (a later one
overwrites), each message_delta adds its output_tokens to OutputTokens
cumulatively, and TotalTokens is recomputed as InputTokens + OutputTokens
(uint32 arithmetic) after each usage-bearing event. -/
theorem C1_per_call_accumulator :
    (∀ (c1 c2 : List SSELine),
        extractTokenUsageFromSSE (c1 ++ c2) = c2.foldl sseStep (extractTokenUsageFromSSE c1))
    ∧ (∀ (lines : List SSELine) (i : ℚ),
        (extractTokenUsageFromSSE (lines ++ [messageStartEvent i])).InputTokens = u32ofFloat i)
    ∧ (∀ (lines : List SSELine) (o : ℚ),
        (extractTokenUsageFromSSE (lines ++ [messageDeltaEvent o])).OutputTokens
          = ((extractTokenUsageFromSSE lines).OutputTokens + u32ofFloat o) % u32Mod)
    ∧ (∀ lines : List SSELine,
        (extractTokenUsageFromSSE lines).TotalTokens
          = ((extractTokenUsageFromSSE lines).InputTokens
              + (extractTokenUsageFromSSE lines).OutputTokens) % u32Mod)
    ∧ (∀ (a : anthropicToAWSAnthropicTranslator) (body : RawBody),
        a.ResponseBody body false
          = .ok ⟨none, some body, extractTokenUsageFromSSE body.sseLines, a.requestModel⟩) := by
  refine ⟨?_, ?_, ?_, ?_, fun _ _ => rfl⟩
  · intro c1 c2
    exact List.foldl_append sseStep zeroUsage c1 c2
  · intro lines i
    unfold extractTokenUsageFromSSE
    rw [List.foldl_append]
    simp [sseStep_messageStart]
  · intro lines o
    unfold extractTokenUsageFromSSE
    rw [List.foldl_append]
    simp [sseStep_messageDelta]
  · intro lines
    exact foldl_sseStep_total lines zeroUsage rfl

theorem sseStep_data_nonobj (u : LLMTokenUsage) (v : JSON) (hv : v.asObj = none) :
    sseStep u (.data v) = u := by
  cases v <;> first | rfl | (exfalso; simp [JSON.asObj] at hv)

/-- C7: on a final (endOfStream) body that fails to parse as the canonical
message-response shape, ResponseBody (both the AWS translator's inline
version and the shared handler) returns no error, zero-value usage, a nil
header mutation, and a body mutation equal to the original input. -/
theorem C7_malformed_final_passthrough
    (a : anthropicToAWSAnthropicTranslator) (body : RawBody) (requestModel : String)
    (h : unmarshalAnthropicMessage body.jsonBody = none) :
    a.ResponseBody body true = .ok ⟨none, some body, zeroUsage, a.requestModel⟩
    ∧ anthropicResponseHandler.ResponseBody body true requestModel
        = .ok ⟨none, some body, zeroUsage, requestModel⟩ := by
  have hx : extractTokenUsageFromResponse body.jsonBody = none := by
    unfold extractTokenUsageFromResponse
    rw [h]
  constructor
  · simp [anthropicToAWSAnthropicTranslator.ResponseBody, hx]
  · simp [anthropicResponseHandler.ResponseBody, hx]

theorem C7_witness :
    anthropicToAWSAnthropicTranslator.ResponseBody ⟨"", "mdl"⟩ ⟨[], none⟩ true
        = .ok ⟨none, some ⟨[], none⟩, zeroUsage, "mdl"⟩
    ∧ anthropicResponseHandler.ResponseBody ⟨[], none⟩ true "m"
        = .ok ⟨none, some ⟨[], none⟩, zeroUsage, "m"⟩ :=
  ⟨(C7_malformed_final_passthrough ⟨"", "mdl"⟩ ⟨[], none⟩ "m" rfl).1,
   (C7_malformed_final_passthrough ⟨"", "mdl"⟩ ⟨[], none⟩ "m" rfl).2⟩

/-- C8: a data line whose remainder fails to parse as a JSON object is
silently skipped; a parse failure on one line never aborts processing of
the rest of the chunk, so removing such a line never changes the extracted
usage, later usage-bearing events still count, and the streaming call never
errors. -/
theorem C8_malformed_sse_lines_skipped :
    (∀ (pre post : List SSELine) (raw : String),
        extractTokenUsageFromSSE (pre ++ SSELine.dataMalformed raw :: post)
          = extractTokenUsageFromSSE (pre ++ post))
    ∧ (∀ (pre post : List SSELine) (v : JSON), v.asObj = none →
        extractTokenUsageFromSSE (pre ++ SSELine.data v :: post)
          = extractTokenUsageFromSSE (pre ++ post))
    ∧ (∀ (a : anthropicToAWSAnthropicTranslator) (body : RawBody),
        (a.ResponseBody body false).isOk = true)
    ∧ extractTokenUsageFromSSE [SSELine.dataMalformed "not json", messageDeltaEvent 5]
        = ⟨0, 5, 5, 0⟩ := by
  refine ⟨?_, ?_, fun _ _ => rfl, by decide⟩
  · intro pre post raw
    unfold extractTokenUsageFromSSE
    rw [List.foldl_append, List.foldl_append, List.foldl_cons]
    rfl
  · intro pre post v hv
    unfold extractTokenUsageFromSSE
    rw [List.foldl_append, List.foldl_append, List.foldl_cons,
      sseStep_data_nonobj _ v hv]

theorem C8_witness :
    extractTokenUsageFromSSE ([] ++ SSELine.data (.num 3) :: [messageDeltaEvent 5])
        = extractTokenUsageFromSSE ([] ++ [messageDeltaEvent 5]) :=
  C8_malformed_sse_lines_skipped.2.1 [] [messageDeltaEvent 5] (.num 3) rfl

/-- C9: every non-final streaming chunk is passed through byte-identically
with a nil header mutation and no error, together with the extracted usage
and the stored request model — for the AWS translator's inline path and for
the shared handler. -/
theorem C9_streaming_passthrough :
    (∀ (a : anthropicToAWSAnthropicTranslator) (body : RawBody),
        a.ResponseBody body false
          = .ok ⟨none, some body, extractTokenUsageFromSSE body.sseLines, a.requestModel⟩)
    ∧ (∀ (body : RawBody) (requestModel : String),
        anthropicResponseHandler.ResponseBody body false requestModel
          = .ok ⟨none, some body, extractTokenUsageFromSSE body.sseLines, requestModel⟩) :=
  ⟨fun _ _ => rfl, fun _ _ => rfl⟩

/-- C10: calling ResponseBody on a freshly constructed AWS translator
(before any RequestBody call has stored a resolved model) succeeds under
the normal rules and reports the zero-value request model "". -/
theorem C10_response_model_default :
    ∀ (ov : String) (body : RawBody) (eos : Bool),
      ∃ r : ResponseBodyResult,
        (NewAnthropicToAWSAnthropicTranslator ov).ResponseBody body eos = .ok r
          ∧ r.responseModel = "" := by
  intro ov body eos
  cases eos with
  | false => exact ⟨_, rfl, rfl⟩
  | true =>
    unfold anthropicToAWSAnthropicTranslator.ResponseBody
    cases h : extractTokenUsageFromResponse body.jsonBody with
    | none =>
      refine ⟨⟨none, some body, zeroUsage, ""⟩, ?_, rfl⟩
      simp [h, NewAnthropicToAWSAnthropicTranslator]
    | some u =>
      refine ⟨⟨some .contentLength, some body, u, ""⟩, ?_, rfl⟩
      simp [h, NewAnthropicToAWSAnthropicTranslator]

/-- C3: the resolved RequestModel stored by RequestBody equals the
configured override whenever the override is non-empty (regardless of the
request's model value, including ""), and equals the original model field's
value exactly whenever the override is empty — both for the shared
applyModelNameOverride helper and for the AWS translator's inline
resolution. -/
theorem C3_model_override_resolution :
    (∀ original override : String, override ≠ "" →
        applyModelNameOverride original override = override)
    ∧ (∀ original : String, applyModelNameOverride original "" = original)
    ∧ (∀ (a : anthropicToAWSAnthropicTranslator) (req : MessagesRequest),
        (a.RequestBody req).1.requestModel
          = applyModelNameOverride req.GetModel a.modelNameOverride)
    ∧ (∀ (req : MessagesRequest) (m : String),
        req.lookup "model" = some (.str m) → req.GetModel = m)
    ∧ (∀ (a : anthropicToGCPAnthropicTranslator) (req : MessagesRequest),
        (a.RequestBody req).1.requestModel
          = applyModelNameOverride req.GetModel a.modelNameOverride) := by
  refine ⟨?_, ?_, ?_, ?_, ?_⟩
  · intro original override h
    simp [applyModelNameOverride, h]
  · intro original
    simp [applyModelNameOverride]
  · intro a req
    rfl
  · intro req m h
    simp [MessagesRequest.GetModel, h, JSON.asString]
  · intro a req
    unfold anthropicToGCPAnthropicTranslator.RequestBody
    by_cases hv : a.apiVersion = "" <;> simp [hv]

theorem C3_witness :
    applyModelNameOverride "claude-3" "bedrock-claude" = "bedrock-claude"
    ∧ MessagesRequest.GetModel [("model", .str "claude-3")] = "claude-3" :=
  ⟨C3_model_override_resolution.1 "claude-3" "bedrock-claude" (by decide),
   C3_model_override_resolution.2.2.2.1 [("model", .str "claude-3")] "claude-3" rfl⟩

theorem u32ofInt_add (a b : Int) :
    u32ofInt (a + b) = (u32ofInt a + u32ofInt b) % u32Mod := by
  unfold u32ofInt u32Mod
  omega

/-- C6: every usage value produced by a successful non-streaming parse has
TotalTokens equal to InputTokens + OutputTokens (uint32 arithmetic), with
CachedInputTokens taken from cache_read_input_tokens and never added into
the total; a parsed body with no usage block yields the all-zero value
(fields are naturals, so never negative). -/
theorem C6_nonstream_usage_invariant :
    (∀ (j : Option JSON) (u : LLMTokenUsage) (m : AnthropicMessage),
        extractTokenUsageFromResponse j = some u →
        unmarshalAnthropicMessage j = some m →
          u.TotalTokens = (u.InputTokens + u.OutputTokens) % u32Mod
          ∧ u.InputTokens = u32ofInt m.usage.input_tokens
          ∧ u.OutputTokens = u32ofInt m.usage.output_tokens
          ∧ u.CachedInputTokens = u32ofInt m.usage.cache_read_input_tokens)
    ∧ (∀ (fields : List (String × JSON)) (u : LLMTokenUsage),
        fields.lookup "usage" = none →
        extractTokenUsageFromResponse (some (.obj fields)) = some u →
          u = zeroUsage) := by
  constructor
  · intro j u m hu hm
    unfold extractTokenUsageFromResponse at hu
    rw [hm] at hu
    obtain rfl : u = ⟨u32ofInt m.usage.input_tokens, u32ofInt m.usage.output_tokens,
        u32ofInt (m.usage.input_tokens + m.usage.output_tokens),
        u32ofInt m.usage.cache_read_input_tokens⟩ := by
      cases hu
      rfl
    exact ⟨u32ofInt_add _ _, rfl, rfl, rfl⟩
  · intro fields u h hu
    unfold extractTokenUsageFromResponse unmarshalAnthropicMessage at hu
    simp only [JSON.asObj, h] at hu
    cases hu
    rfl

theorem streamFlag_iff (o : Option JSON) :
    ((match o.bind JSON.asBool with | some true => true | _ => false) = true)
      ↔ o = some (.bool true) := by
  cases o with
  | none => simp
  | some v =>
    cases v with
    | bool b => cases b <;> simp [JSON.asBool]
    | null => simp [JSON.asBool]
    | num q => simp [JSON.asBool]
    | str s => simp [JSON.asBool]
    | arr elems => simp [JSON.asBool]
    | obj fields => simp [JSON.asBool]


theorem aws_requestBody_stream (a : anthropicToAWSAnthropicTranslator)
    (req : MessagesRequest) (hb : req.lookup "stream" = some (.bool true)) :
    a.RequestBody req
      = (⟨a.modelNameOverride, applyModelNameOverride req.GetModel a.modelNameOverride⟩,
         .ok ⟨"/model/" ++ pathEscape (applyModelNameOverride req.GetModel a.modelNameOverride)
                ++ "/invoke-stream",
              removeKey "model" req⟩) := by
  unfold anthropicToAWSAnthropicTranslator.RequestBody
  dsimp only
  rw [lookup_removeKey req (show "stream" ≠ "model" by decide), hb]
  rfl

theorem aws_requestBody_nostream (a : anthropicToAWSAnthropicTranslator)
    (req : MessagesRequest) (hb : req.lookup "stream" ≠ some (.bool true)) :
    a.RequestBody req
      = (⟨a.modelNameOverride, applyModelNameOverride req.GetModel a.modelNameOverride⟩,
         .ok ⟨"/model/" ++ pathEscape (applyModelNameOverride req.GetModel a.modelNameOverride)
                ++ "/invoke",
              removeKey "model" req⟩) := by
  unfold anthropicToAWSAnthropicTranslator.RequestBody
  dsimp only
  rw [lookup_removeKey req (show "stream" ≠ "model" by decide)]
  cases hq : req.lookup "stream" with
  | none => rfl
  | some v =>
    cases v with
    | bool b =>
      cases b with
      | true => exact absurd hq hb
      | false => rfl
    | null => rfl
    | num q => rfl
    | str s => rfl
    | arr elems => rfl
    | obj fields => rfl

theorem gcp_requestBody_err (a : anthropicToGCPAnthropicTranslator) (req : MessagesRequest)
    (hv : a.apiVersion = "") :
    (a.RequestBody req).2
      = .error "anthropic_version is required for GCP Vertex AI but not provided in backend configuration" := by
  unfold anthropicToGCPAnthropicTranslator.RequestBody
  dsimp only
  rw [if_pos hv]

theorem gcp_requestBody_stream (a : anthropicToGCPAnthropicTranslator)
    (req : MessagesRequest) (hv : a.apiVersion ≠ "")
    (hb : req.lookup "stream" = some (.bool true)) :
    a.RequestBody req
      = (⟨a.apiVersion, a.modelNameOverride, applyModelNameOverride req.GetModel a.modelNameOverride⟩,
         .ok ⟨buildGCPModelPathSuffix gcpModelPublisherAnthropic
                (applyModelNameOverride req.GetModel a.modelNameOverride) "streamRawPredict",
              setKey anthropicVersionKey (.str a.apiVersion) (removeKey "model" req)⟩) := by
  unfold anthropicToGCPAnthropicTranslator.RequestBody
  dsimp only
  rw [if_neg hv,
    lookup_setKey_ne _ _ (show "stream" ≠ anthropicVersionKey by decide),
    lookup_removeKey req (show "stream" ≠ "model" by decide), hb]
  rfl

theorem gcp_requestBody_nostream (a : anthropicToGCPAnthropicTranslator)
    (req : MessagesRequest) (hv : a.apiVersion ≠ "")
    (hb : req.lookup "stream" ≠ some (.bool true)) :
    a.RequestBody req
      = (⟨a.apiVersion, a.modelNameOverride, applyModelNameOverride req.GetModel a.modelNameOverride⟩,
         .ok ⟨buildGCPModelPathSuffix gcpModelPublisherAnthropic
                (applyModelNameOverride req.GetModel a.modelNameOverride) "rawPredict",
              setKey anthropicVersionKey (.str a.apiVersion) (removeKey "model" req)⟩) := by
  unfold anthropicToGCPAnthropicTranslator.RequestBody
  dsimp only
  rw [if_neg hv,
    lookup_setKey_ne _ _ (show "stream" ≠ anthropicVersionKey by decide),
    lookup_removeKey req (show "stream" ≠ "model" by decide)]
  cases hq : req.lookup "stream" with
  | none => rfl
  | some v =>
    cases v with
    | bool b =>
      cases b with
      | true => exact absurd hq hb
      | false => rfl
    | null => rfl
    | num q => rfl
    | str s => rfl
    | arr elems => rfl
    | obj fields => rfl

/-- C4: the request path ends with the streaming suffix exactly when the
request's stream field is the boolean true; for stream false, absent, or
non-boolean, it ends with the non-streaming suffix — for the AWS translator
(/invoke-stream vs /invoke) and the GCP translator (:streamRawPredict vs
:rawPredict). -/
theorem C4_streaming_path_selection :
    (∀ (a : anthropicToAWSAnthropicTranslator) (req : MessagesRequest) (muts : RequestMutations),
        (a.RequestBody req).2 = .ok muts →
          (strEndsWith muts.path "/invoke-stream" ↔ req.lookup "stream" = some (.bool true))
          ∧ (req.lookup "stream" ≠ some (.bool true) → strEndsWith muts.path "/invoke"))
    ∧ (∀ (a : anthropicToGCPAnthropicTranslator) (req : MessagesRequest) (muts : RequestMutations),
        (a.RequestBody req).2 = .ok muts →
          (strEndsWith muts.path ":streamRawPredict" ↔ req.lookup "stream" = some (.bool true))
          ∧ (req.lookup "stream" ≠ some (.bool true) → strEndsWith muts.path ":rawPredict")) := by
  constructor
  · intro a req muts h
    by_cases hb : req.lookup "stream" = some (.bool true)
    · rw [aws_requestBody_stream a req hb] at h
      obtain rfl := Except.ok.inj h
      exact ⟨iff_of_true (strEndsWith_append _ _) hb, fun hc => absurd hb hc⟩
    · rw [aws_requestBody_nostream a req hb] at h
      obtain rfl := Except.ok.inj h
      exact ⟨iff_of_false (aws_no_stream_suffix _) hb, fun _ => strEndsWith_append _ _⟩
  · intro a req muts h
    by_cases hv : a.apiVersion = ""
    · rw [gcp_requestBody_err a req hv] at h
      exact absurd h (by simp)
    · by_cases hb : req.lookup "stream" = some (.bool true)
      · rw [gcp_requestBody_stream a req hv hb] at h
        obtain rfl := Except.ok.inj h
        refine ⟨iff_of_true ?_ hb, fun hc => absurd hb hc⟩
        unfold buildGCPModelPathSuffix
        rw [String.append_assoc]
        exact strEndsWith_append _ _
      · rw [gcp_requestBody_nostream a req hv hb] at h
        obtain rfl := Except.ok.inj h
        refine ⟨iff_of_false ?_ hb, fun _ => ?_⟩
        · exact gcp_no_stream_suffix _
        · unfold buildGCPModelPathSuffix
          rw [String.append_assoc]
          exact strEndsWith_append _ _

theorem C4_witness :
    (strEndsWith
        (RequestMutations.path ⟨"/model//invoke-stream", [("stream", JSON.bool true)]⟩)
        "/invoke-stream"
      ↔ List.lookup "stream" [("stream", JSON.bool true)] = some (JSON.bool true))
    ∧ (List.lookup "stream" [("stream", JSON.bool true)] ≠ some (JSON.bool true) →
        strEndsWith
          (RequestMutations.path ⟨"/model//invoke-stream", [("stream", JSON.bool true)]⟩)
          "/invoke") :=
  C4_streaming_path_selection.1 ⟨"", ""⟩ [("stream", .bool true)]
    ⟨"/model//invoke-stream", [("stream", .bool true)]⟩ rfl

/-- C2 counterexample: the AWS translator of
src/internal/extproc/translator/anthropic_awsanthropic.go succeeds on a
canonical request although no apiVersionString exists in its configuration
(there is no such field and no configuration error), and its output body
contains no anthropic_version key — refuting the claim that the AWS-hosted
RequestBody always injects the field and fails on an empty version. -/
theorem C2_counterexample :
    ((NewAnthropicToAWSAnthropicTranslator "").RequestBody
        [("model", .str "m"), ("max_tokens", .num 5)]).2
      = .ok ⟨"/model/m/invoke", [("max_tokens", .num 5)]⟩
    ∧ List.lookup "anthropic_version" [("max_tokens", JSON.num 5)] = none :=
  ⟨rfl, rfl⟩

/-- C2 (amended): the GCP translator (src/unnamed/part_003) and the
apiVersion-bearing AWS translator snapshot (src/unnamed/part_005) satisfy
the claim — every successful RequestBody output body has no model key and
carries anthropic_version equal to the configured apiVersion, and an empty
apiVersion is a configuration error; the AWS translator of
src/internal/extproc/translator/anthropic_awsanthropic.go has no
apiVersionString, never injects anthropic_version (the key's binding in the
output equals the input's), never raises a configuration error, and still
never emits a model key. -/
theorem C2_version_injection :
    (∀ (a : anthropicToGCPAnthropicTranslator) (req : MessagesRequest)
        (muts : RequestMutations), (a.RequestBody req).2 = .ok muts →
          muts.bodyFields.lookup "model" = none
          ∧ muts.bodyFields.lookup "anthropic_version" = some (.str a.apiVersion))
    ∧ (∀ (ov : String) (req : MessagesRequest),
        ∃ e, ((NewAnthropicToGCPAnthropicTranslator "" ov).RequestBody req).2 = .error e)
    ∧ (∀ (a : anthropicToAWSAnthropicTranslatorWithVersion) (req : MessagesRequest)
        (muts : RequestMutations), (a.RequestBody req).2 = .ok muts →
          muts.bodyFields.lookup "model" = none
          ∧ muts.bodyFields.lookup "anthropic_version" = some (.str a.apiVersion))
    ∧ (∀ (ov : String) (req : MessagesRequest),
        ∃ e, ((NewAnthropicToAWSAnthropicTranslatorWithVersion "" ov).RequestBody req).2
          = .error e)
    ∧ (∀ (a : anthropicToAWSAnthropicTranslator) (req : MessagesRequest)
        (muts : RequestMutations), (a.RequestBody req).2 = .ok muts →
          muts.bodyFields.lookup "model" = none
          ∧ muts.bodyFields.lookup "anthropic_version" = req.lookup "anthropic_version") := by
  refine ⟨?_, ?_, ?_, ?_, ?_⟩
  · intro a req muts h
    by_cases hv : a.apiVersion = ""
    · rw [gcp_requestBody_err a req hv] at h
      exact absurd h (by simp)
    · unfold anthropicToGCPAnthropicTranslator.RequestBody at h
      dsimp only at h
      rw [if_neg hv] at h
      obtain rfl := Except.ok.inj h
      dsimp only [buildRequestMutations]
      refine ⟨?_, ?_⟩
      · rw [lookup_setKey_ne _ _ (show "model" ≠ anthropicVersionKey by decide),
          lookup_removeKey_self]
      · exact lookup_setKey_self _ _
  · intro ov req
    exact ⟨_, gcp_requestBody_err _ req rfl⟩
  · intro a req muts h
    by_cases hv : a.apiVersion = ""
    · unfold anthropicToAWSAnthropicTranslatorWithVersion.RequestBody at h
      dsimp only at h
      rw [if_pos hv] at h
      exact absurd h (by simp)
    · unfold anthropicToAWSAnthropicTranslatorWithVersion.RequestBody at h
      dsimp only at h
      rw [if_neg hv] at h
      obtain rfl := Except.ok.inj h
      dsimp only [buildRequestMutations]
      refine ⟨?_, ?_⟩
      · rw [lookup_setKey_ne _ _ (show "model" ≠ anthropicVersionKey by decide),
          lookup_removeKey_self]
      · exact lookup_setKey_self _ _
  · intro ov req
    refine ⟨"anthropic_version is required for AWS Bedrock but not provided in backend configuration", ?_⟩
    rfl
  · intro a req muts h
    unfold anthropicToAWSAnthropicTranslator.RequestBody at h
    dsimp only at h
    obtain rfl := Except.ok.inj h
    dsimp only [buildRequestMutations]
    exact ⟨lookup_removeKey_self _,
      lookup_removeKey req (show "anthropic_version" ≠ "model" by decide)⟩

theorem C2_witness :
    (List.lookup "model"
        (RequestMutations.bodyFields
          ⟨"/anthropic/models/m:rawPredict",
           [("max_tokens", JSON.num 5), ("anthropic_version", JSON.str "vertex-2023-10-16")]⟩)
        = none)
    ∧ List.lookup "anthropic_version"
        (RequestMutations.bodyFields
          ⟨"/anthropic/models/m:rawPredict",
           [("max_tokens", JSON.num 5), ("anthropic_version", JSON.str "vertex-2023-10-16")]⟩)
        = some (.str "vertex-2023-10-16") :=
  C2_version_injection.1 (NewAnthropicToGCPAnthropicTranslator "vertex-2023-10-16" "")
    [("model", .str "m"), ("max_tokens", .num 5)]
    ⟨"/anthropic/models/m:rawPredict",
     [("max_tokens", JSON.num 5), ("anthropic_version", JSON.str "vertex-2023-10-16")]⟩ rfl

theorem char_toNat_lt_1114112 (c : Char) : c.toNat < 1114112 := by
  have h : c.val.toNat < 1114112 := by
    rcases c.valid with h | h
    · omega
    · exact h.2
  exact h

theorem utf8Bytes_lt_256 (c : Char) : ∀ b ∈ utf8Bytes c, b < 256 := by
  have hc : c.toNat < 1114112 := char_toNat_lt_1114112 c
  intro b hb
  unfold utf8Bytes at hb
  dsimp only at hb
  split at hb
  · simp at hb; omega
  · split at hb
    · simp at hb; omega
    · split at hb
      · simp at hb
        rcases hb with hb | hb | hb <;> omega
      · simp at hb
        rcases hb with hb | hb | hb | hb <;> omega

theorem slash_not_mem_escapeByte : ∀ b, b < 256 → ('/' : Char) ∉ escapeByte b := by decide

theorem colon_count_escapeByte :
    ∀ b, b < 256 → (escapeByte b).count ':' = (if b = 58 then 1 else 0) := by decide

theorem slash_not_mem_pathEscape (s : String) : ('/' : Char) ∉ (pathEscape s).data := by
  show ('/' : Char) ∉ ((s.data.map utf8Bytes).flatten.map escapeByte).flatten
  intro hm
  rw [List.mem_flatten] at hm
  obtain ⟨l, hl, hmem⟩ := hm
  rw [List.mem_map] at hl
  obtain ⟨b, hb, rfl⟩ := hl
  rw [List.mem_flatten] at hb
  obtain ⟨bs, hbs, hbmem⟩ := hb
  rw [List.mem_map] at hbs
  obtain ⟨c, hc, rfl⟩ := hbs
  exact slash_not_mem_escapeByte b (utf8Bytes_lt_256 c b hbmem) hmem

theorem colon_count_escape_list :
    ∀ l : List Char, (∀ c ∈ l, c.toNat < 128) →
      (((l.map utf8Bytes).flatten.map escapeByte).flatten).count ':' = l.count ':' := by
  intro l h
  induction l with
  | nil => rfl
  | cons c t ih =>
    have hc : c.toNat < 128 := h c (by simp)
    have hutf : utf8Bytes c = [c.toNat] := by
      unfold utf8Bytes
      dsimp only
      rw [if_pos hc]
    rw [List.map_cons, List.flatten_cons, hutf, List.map_append, List.flatten_append,
      List.count_append]
    rw [show (List.map escapeByte [c.toNat]).flatten = escapeByte c.toNat by simp]
    rw [colon_count_escapeByte c.toNat (by omega), ih (fun x hx => h x (by simp [hx]))]
    have hiff : (c.toNat = 58) ↔ (c = ':') := by
      constructor
      · intro h58
        have h2 := congrArg Char.ofNat h58
        rwa [Char.ofNat_toNat] at h2
      · intro hcc
        rw [hcc]
        rfl
    by_cases h58 : c.toNat = 58
    · have hcc : c = ':' := hiff.mp h58
      simp [h58, hcc, List.count_cons]
      omega
    · have hcc : ¬ c = ':' := fun hcc => h58 (hiff.mpr hcc)
      simp [h58, List.count_cons, hcc]

/-- C5: the AWS path embeds the resolved model identifier path-escaped:
the escaped identifier never contains a slash ('/' is emitted as %2F) while
colons pass through unescaped (colon count preserved for ASCII input); the
path is /model/<escaped-id>/invoke in the non-streaming case; and the ARN
example produces exactly the path the spec requires. -/
theorem C5_path_escaping :
    ((NewAnthropicToAWSAnthropicTranslator "").RequestBody
        [("model",
          .str "arn:aws:bedrock:eu-central-1:000000000:application-inference-profile/aaaaaaaaa")]).2
      = .ok ⟨"/model/arn:aws:bedrock:eu-central-1:000000000:application-inference-profile%2Faaaaaaaaa/invoke",
             []⟩
    ∧ (∀ s : String, ('/' : Char) ∉ (pathEscape s).data)
    ∧ (∀ s : String, (∀ c ∈ s.data, c.toNat < 128) →
        (pathEscape s).data.count ':' = s.data.count ':')
    ∧ (∀ (a : anthropicToAWSAnthropicTranslator) (req : MessagesRequest)
        (muts : RequestMutations), req.lookup "stream" ≠ some (.bool true) →
        (a.RequestBody req).2 = .ok muts →
          muts.path = "/model/"
            ++ pathEscape (applyModelNameOverride req.GetModel a.modelNameOverride)
            ++ "/invoke") := by
  refine ⟨rfl, slash_not_mem_pathEscape, ?_, ?_⟩
  · intro s hs
    exact colon_count_escape_list s.data hs
  · intro a req muts hb h
    rw [aws_requestBody_nostream a req hb] at h
    obtain rfl := Except.ok.inj h
    rfl

theorem C5_witness :
    ((∀ c ∈ ("a:b" : String).data, c.toNat < 128) ∧
      (pathEscape "a:b").data.count ':' = ("a:b" : String).data.count ':')
    ∧ (List.lookup "stream" ([] : MessagesRequest) ≠ some (.bool true)
        ∧ (⟨"/model//invoke", []⟩ : RequestMutations).path
            = "/model/" ++ pathEscape (applyModelNameOverride (MessagesRequest.GetModel []) "")
                ++ "/invoke") :=
  ⟨⟨by decide, C5_path_escaping.2.2.1 "a:b" (by decide)⟩,
   ⟨by simp, C5_path_escaping.2.2.2 ⟨"", ""⟩ [] ⟨"/model//invoke", []⟩ (by simp) rfl⟩⟩

theorem C6_witness :
    ((45 : Nat) + 28) % u32Mod = 73
    ∧ ((73 : Nat) = ((45 : Nat) + 28) % u32Mod
        ∧ (45 : Nat) = u32ofInt 45
        ∧ (28 : Nat) = u32ofInt 28
        ∧ (30 : Nat) = u32ofInt 30)
    ∧ zeroUsage = zeroUsage :=
  ⟨by decide,
   C6_nonstream_usage_invariant.1
     (some (.obj [("usage",
        .obj [("input_tokens", .num 45), ("output_tokens", .num 28),
              ("cache_read_input_tokens", .num 30)])]))
     ⟨45, 28, 73, 30⟩ ⟨⟨45, 28, 30⟩⟩ (by decide) (by decide),
   C6_nonstream_usage_invariant.2 [("id", .str "x")] zeroUsage rfl (by decide)⟩
